import Mathlib

/-!
Verification development for the gridsim repository: a shallow embedding of
the direction algebra, neighborhood containers, grid indexing, and the
square-grid simulation step pipeline, together with theorems settling the
behavioural claims about them.
-/

namespace Gridsim

/-! ## Directions (src/direction.rs, src/neumann.rs, src/moore.rs)

The repository names the 8-direction set NeumannDirection (src/neumann.rs)
and the 4-direction set MooreDirection (src/moore.rs).  The integer
conversions are embedded as maps to and from Fin of the direction count,
since the source From impl is only reachable with indices below the count
(inv and the turns always reduce modulo the count before converting back).
-/

/-- Embedding of NeumannDirection from src/neumann.rs (the 8-direction set). -/
inductive NeumannDirection where
  | right
  | upRight
  | up
  | upLeft
  | left
  | downLeft
  | down
  | downRight
deriving DecidableEq, Repr, Fintype

/-- Embedding of the Into usize conversion for NeumannDirection. -/
def NeumannDirection.toIdx : NeumannDirection → Fin 8
  | .right => 0
  | .upRight => 1
  | .up => 2
  | .upLeft => 3
  | .left => 4
  | .downLeft => 5
  | .down => 6
  | .downRight => 7

/-- Embedding of the From usize conversion for NeumannDirection. -/
def NeumannDirection.ofIdx : Fin 8 → NeumannDirection
  | 0 => .right
  | 1 => .upRight
  | 2 => .up
  | 3 => .upLeft
  | 4 => .left
  | 5 => .downLeft
  | 6 => .down
  | 7 => .downRight

/-- Iteration order of the directions, as enum order in src/neumann.rs. -/
def NeumannDirection.directionsList : List NeumannDirection :=
  [.right, .upRight, .up, .upLeft, .left, .downLeft, .down, .downRight]

/-- Embedding of Direction::total for NeumannDirection: count of directions. -/
def NeumannDirection.total : Nat := NeumannDirection.directionsList.length

/-- Embedding of Direction::inv (src/direction.rs): offset by total / 2 modulo total. -/
def NeumannDirection.inv (d : NeumannDirection) : NeumannDirection :=
  NeumannDirection.ofIdx
    ⟨(d.toIdx.val + NeumannDirection.total / 2) % NeumannDirection.total, by
      have : (d.toIdx.val + NeumannDirection.total / 2) % NeumannDirection.total <
          NeumannDirection.total := Nat.mod_lt _ (by decide)
      simpa [NeumannDirection.total, NeumannDirection.directionsList] using this⟩

/-- Embedding of Direction::turn_clockwise (src/direction.rs). -/
def NeumannDirection.turnClockwise (d : NeumannDirection) : NeumannDirection :=
  NeumannDirection.ofIdx
    ⟨(d.toIdx.val + (NeumannDirection.total - 1)) % NeumannDirection.total, by
      have : (d.toIdx.val + (NeumannDirection.total - 1)) % NeumannDirection.total <
          NeumannDirection.total := Nat.mod_lt _ (by decide)
      simpa [NeumannDirection.total, NeumannDirection.directionsList] using this⟩

/-- Embedding of Direction::turn_counterclockwise (src/direction.rs). -/
def NeumannDirection.turnCounterclockwise (d : NeumannDirection) : NeumannDirection :=
  NeumannDirection.ofIdx
    ⟨(d.toIdx.val + 1) % NeumannDirection.total, by
      have : (d.toIdx.val + 1) % NeumannDirection.total < NeumannDirection.total :=
        Nat.mod_lt _ (by decide)
      simpa [NeumannDirection.total, NeumannDirection.directionsList] using this⟩

/-- Embedding of NeumannDirection::delta (src/neumann.rs): offsets (dx, dy). -/
def NeumannDirection.delta : NeumannDirection → Int × Int
  | .right => (1, 0)
  | .upRight => (1, -1)
  | .up => (0, -1)
  | .upLeft => (-1, -1)
  | .left => (-1, 0)
  | .downLeft => (-1, 1)
  | .down => (0, 1)
  | .downRight => (1, 1)

/-- Embedding of MooreDirection from src/moore.rs (the 4-direction set). -/
inductive MooreDirection where
  | right
  | up
  | left
  | down
deriving DecidableEq, Repr, Fintype

/-- Embedding of the Into usize conversion for MooreDirection. -/
def MooreDirection.toIdx : MooreDirection → Fin 4
  | .right => 0
  | .up => 1
  | .left => 2
  | .down => 3

/-- Embedding of the From usize conversion for MooreDirection. -/
def MooreDirection.ofIdx : Fin 4 → MooreDirection
  | 0 => .right
  | 1 => .up
  | 2 => .left
  | 3 => .down

/-- Iteration order of the directions, as enum order in src/moore.rs. -/
def MooreDirection.directionsList : List MooreDirection :=
  [.right, .up, .left, .down]

/-- Embedding of Direction::total for MooreDirection: count of directions. -/
def MooreDirection.total : Nat := MooreDirection.directionsList.length

/-- Embedding of Direction::inv for MooreDirection. -/
def MooreDirection.inv (d : MooreDirection) : MooreDirection :=
  MooreDirection.ofIdx
    ⟨(d.toIdx.val + MooreDirection.total / 2) % MooreDirection.total, by
      have : (d.toIdx.val + MooreDirection.total / 2) % MooreDirection.total <
          MooreDirection.total := Nat.mod_lt _ (by decide)
      simpa [MooreDirection.total, MooreDirection.directionsList] using this⟩

/-- Embedding of Direction::turn_clockwise for MooreDirection. -/
def MooreDirection.turnClockwise (d : MooreDirection) : MooreDirection :=
  MooreDirection.ofIdx
    ⟨(d.toIdx.val + (MooreDirection.total - 1)) % MooreDirection.total, by
      have : (d.toIdx.val + (MooreDirection.total - 1)) % MooreDirection.total <
          MooreDirection.total := Nat.mod_lt _ (by decide)
      simpa [MooreDirection.total, MooreDirection.directionsList] using this⟩

/-- Embedding of Direction::turn_counterclockwise for MooreDirection. -/
def MooreDirection.turnCounterclockwise (d : MooreDirection) : MooreDirection :=
  MooreDirection.ofIdx
    ⟨(d.toIdx.val + 1) % MooreDirection.total, by
      have : (d.toIdx.val + 1) % MooreDirection.total < MooreDirection.total :=
        Nat.mod_lt _ (by decide)
      simpa [MooreDirection.total, MooreDirection.directionsList] using this⟩

/-- Embedding of MooreDirection::delta (src/moore.rs): offsets (dx, dy). -/
def MooreDirection.delta : MooreDirection → Int × Int
  | .right => (1, 0)
  | .up => (0, -1)
  | .left => (-1, 0)
  | .down => (0, 1)

/-- Componentwise sum of a list of integer offset pairs. -/
def sumDeltas (l : List (Int × Int)) : Int × Int :=
  l.foldl (fun a b => (a.1 + b.1, a.2 + b.2)) (0, 0)

/-! ## Neighborhood containers (src/neumann.rs, src/moore.rs) -/

/-- Embedding of the NeumannNeighbors struct (src/neumann.rs): one slot per
direction of the 8-direction set, in field order. -/
structure NeumannNeighbors (T : Type) where
  right : T
  upRight : T
  up : T
  upLeft : T
  left : T
  downLeft : T
  down : T
  downRight : T
deriving DecidableEq, Repr

/-- Embedding of the FromIterator impl for NeumannNeighbors: eight successive
iterator items are unwrapped into the slots in canonical direction order;
an exhausted iterator panics (None); any remaining items are never read. -/
def NeumannNeighbors.fromIter {T : Type} : List T → Option (NeumannNeighbors T)
  | r :: ur :: u :: ul :: le :: dl :: d :: dr :: _ =>
      some ⟨r, ur, u, ul, le, dl, d, dr⟩
  | _ => none

/-- Embedding of the MooreNeighbors struct (src/moore.rs): one slot per
direction of the 4-direction set, in field order. -/
structure MooreNeighbors (T : Type) where
  right : T
  up : T
  left : T
  down : T
deriving DecidableEq, Repr

/-- Embedding of the FromIterator impl for MooreNeighbors: four successive
iterator items are unwrapped into the slots in canonical direction order;
an exhausted iterator panics (None); any remaining items are never read. -/
def MooreNeighbors.fromIter {T : Type} : List T → Option (MooreNeighbors T)
  | r :: u :: le :: d :: _ => some ⟨r, u, le, d⟩
  | _ => none

/-! ## Flat-grid indexing (src/grid.rs, src/multigrid.rs) -/

/-- Embedding of SquareGrid::get_cell (src/grid.rs): plain indexing into the
cell vector; an out-of-bounds index panics (None). -/
def getCell {C : Type} (cells : List C) (i : Nat) : Option C :=
  cells.get? i

/-- Embedding of SquareGrid::get_cell_at (src/grid.rs): indexes the cell
vector at y * height + x, exactly as written in the source (get_cell_at_mut
uses the same index expression). -/
def getCellAt {C : Type} (cells : List C) (height : Nat) (x y : Nat) : Option C :=
  cells.get? (y * height + x)

/-- Embedding of SquareGrid::delta_index (src/grid.rs): per-axis wrapping of
the x and y components recovered from the flat index. -/
def squareGridDeltaIndex (width height : Nat) (i : Nat) (delta : Int × Int) : Nat :=
  let dx := delta.1
  let dy := delta.2
  let x := i % width
  let y := i / width
  let x2 := ((width : Int) + dx + (x : Int)).toNat % width
  let y2 := ((height : Int) + dy + (y : Int)).toNat % height
  x2 + y2 * width

/-- Embedding of VonNeumannMultiSquareGrid::delta_index (src/multigrid.rs):
wrapping of the whole flat index modulo the grid size. -/
def multiDeltaIndex (width height : Nat) (i : Nat) (delta : Int × Int) : Nat :=
  let dx := delta.1
  let dy := delta.2
  (((i + width * height : Nat) : Int) + dx + dy * (width : Int)).toNat % (width * height)

/-! ## The square-grid step engine (src/square_grid.rs, src/tests/gol.rs)

The Sim trait used by src/square_grid.rs (compute, egress, ingress and the
three padding providers) is embedded as a record; its shape is read off the
call sites in src/square_grid.rs and the impl in src/tests/gol.rs.  A padded
grid is a function from (row, column) coordinates; the padded array of a
grid with interior h by w has rows 0..h+1 and columns 0..w+1, with the
interior occupying rows 1..h and columns 1..w. -/

/-- Interface of the Sim trait as used by src/square_grid.rs. -/
structure SimRules (C D Fl : Type) where
  compute : (Fin 3 → Fin 3 → C) → D
  egress : C → (Fin 3 → Fin 3 → D) → C × (Fin 8 → Fl)
  ingress : C → (Fin 8 → Fl) → C
  cellPadding : C
  diffPadding : D
  flowPadding : Fl

/-- Interior predicate for a padded array with outer dimensions H by W:
the cells the engine runs the simulation on (slice 1..-1 on both axes). -/
abbrev interiorPos (H W y x : Nat) : Prop :=
  1 ≤ y ∧ y ≤ H - 2 ∧ 1 ≤ x ∧ x ≤ W - 2

/-- Padded cell array produced by SquareGrid::new (src/square_grid.rs):
the original cells sit in the interior and every border cell holds
cell_padding. -/
def paddedOf {C D Fl : Type} (sim : SimRules C D Fl) (h w : Nat)
    (orig : Nat → Nat → C) : Nat → Nat → C :=
  fun y x =>
    if 1 ≤ y ∧ y ≤ h ∧ 1 ≤ x ∧ x ≤ w then orig (y - 1) (x - 1) else sim.cellPadding

/-- Embedding of SquareGrid::new (src/square_grid.rs): asserts that both
dimensions are at least 1 (a failed assertion panics, i.e. None) and then
builds the padded cell array. -/
def squareGridNew {C D Fl : Type} (sim : SimRules C D Fl) (h w : Nat)
    (orig : Nat → Nat → C) : Option (Nat → Nat → C) :=
  if 1 ≤ h ∧ 1 ≤ w then some (paddedOf sim h w orig) else none

/-- The 3 by 3 window of a padded array centered on cell (y, x), as produced
by ndarray windows((3, 3)) zipped against the interior slice. -/
def window {α : Type} (g : Nat → Nat → α) (y x : Nat) : Fin 3 → Fin 3 → α :=
  fun i j => g (y - 1 + i.val) (x - 1 + j.val)

/-- Embedding of the compute pass of SquareGrid::step_parallel
(compute_diffs in src/square_grid.rs): every interior cell gets the diff
computed from its 3 by 3 window of old cells; padding cells keep
diff_padding. -/
def computeDiffs {C D Fl : Type} (sim : SimRules C D Fl) (H W : Nat)
    (cells : Nat → Nat → C) : Nat → Nat → D :=
  fun y x =>
    if interiorPos H W y x then sim.compute (window cells y x) else sim.diffPadding

/-- Cell component of the egress pass of perform_egress
(src/square_grid.rs): every interior cell is replaced by the cell the sim
egress call leaves behind; padding cells are untouched. -/
def egressCells {C D Fl : Type} (sim : SimRules C D Fl) (H W : Nat)
    (cells : Nat → Nat → C) (diffs : Nat → Nat → D) : Nat → Nat → C :=
  fun y x =>
    if interiorPos H W y x then (sim.egress (cells y x) (window diffs y x)).1
    else cells y x

/-- Flow component of the egress pass of perform_egress
(src/square_grid.rs): every interior cell emits its 8 outgoing flows;
padding cells keep flow_padding in every slot. -/
def egressFlows {C D Fl : Type} (sim : SimRules C D Fl) (H W : Nat)
    (cells : Nat → Nat → C) (diffs : Nat → Nat → D) : Nat → Nat → Fin 8 → Fl :=
  fun y x =>
    if interiorPos H W y x then (sim.egress (cells y x) (window diffs y x)).2
    else fun _ => sim.flowPadding

/-! ## The flow-exchange passes of perform_egress (src/square_grid.rs)

The four offset block passes move every emitted flow into the inbound slot
it is consumed from.  Each pass partitions (an offset slice of) the flow
array into complete 2 by 2 chunks, and exchange_chunk performs four slot
swaps inside each chunk.  Because the chunks of one pass are pairwise
disjoint, the parallel pass is the pointwise application of exchange_chunk
to the chunk each cell belongs to. -/

/-- One mem::swap of slot i of the first flow array against slot j of the
second, as performed inside exchange_chunk. -/
def swapSlots {F : Type} (a b : Fin 8 → F) (i j : Fin 8) : (Fin 8 → F) × (Fin 8 → F) :=
  (Function.update a i (b j), Function.update b j (a i))

/-- Embedding of exchange_chunk (src/square_grid.rs): on a 2 by 2 chunk
(top-left, top-right, bottom-left, bottom-right), swap bottom-left slot 0
with bottom-right slot 4 (left to right), top-right slot 6 with bottom-right
slot 2 (top to bottom), and the two diagonals: top-left slot 7 with
bottom-right slot 3, and top-right slot 5 with bottom-left slot 1. -/
def exchange_chunk {F : Type} (tl tr bl br : Fin 8 → F) :
    (Fin 8 → F) × (Fin 8 → F) × (Fin 8 → F) × (Fin 8 → F) :=
  let s1 := swapSlots bl br 0 4
  let s2 := swapSlots tr s1.2 6 2
  let s3 := swapSlots tl s2.2 7 3
  let s4 := swapSlots s2.1 s1.1 5 1
  (s3.1, s4.1, s4.2, s3.2)

/-- Top-left corner of the 2 by 2 chunk containing coordinate p in the pass
whose chunk partition starts at offset o (chunks cover o + 2k and
o + 2k + 1). -/
def chunkBase (o p : Nat) : Nat := o + 2 * ((p - o) / 2)

/-- A cell takes part in a pass exactly when it lies inside the offset
slice and its chunk is complete (exact_chunks drops partial chunks at the
far edges). -/
abbrev inCompleteChunk (H W y0 x0 y x : Nat) : Prop :=
  y0 ≤ y ∧ x0 ≤ x ∧ chunkBase y0 y + 1 < H ∧ chunkBase x0 x + 1 < W

/-- One parallel pass of the flow exchange at offset (y0, x0): every cell of
a complete chunk receives its component of exchange_chunk applied to that
chunk; all other cells are untouched. -/
def applyPass {F : Type} (H W y0 x0 : Nat) (g : Nat → Nat → Fin 8 → F) :
    Nat → Nat → Fin 8 → F :=
  fun y x =>
    if inCompleteChunk H W y0 x0 y x then
      let cy := chunkBase y0 y
      let cx := chunkBase x0 x
      let r := exchange_chunk (g cy cx) (g cy (cx + 1)) (g (cy + 1) cx) (g (cy + 1) (cx + 1))
      if y = cy then (if x = cx then r.1 else r.2.1)
      else (if x = cx then r.2.2.1 else r.2.2.2)
    else g y x

/-- The full flow exchange of perform_egress: the four passes offset by
(0, 0), (0, 1), (1, 0) and (1, 1), applied in the loop order of the
source. -/
def exchangeAll {F : Type} (H W : Nat) (g : Nat → Nat → Fin 8 → F) :
    Nat → Nat → Fin 8 → F :=
  applyPass H W 1 1 (applyPass H W 1 0 (applyPass H W 0 1 (applyPass H W 0 0 g)))

/-- Offset vector of flow slot s, through the direction the slot index
stands for (slot numbering in the flow arrays is the NeumannDirection
integer conversion). -/
def slotDelta (s : Fin 8) : Int × Int := (NeumannDirection.ofIdx s).delta

/-- Inverse slot of flow slot s, through Direction::inv on the direction
the slot stands for. -/
def invSlot (s : Fin 8) : Fin 8 := (NeumannDirection.ofIdx s).inv.toIdx

/-- Chunk row (0 for top, 1 for bottom) of the cell whose slot s is touched
by exchange_chunk: slots 0..4 are swapped on bottom-row cells, slots 5..7
on top-row cells. -/
def slotRoleRow : Fin 8 → Nat
  | 0 => 1
  | 1 => 1
  | 2 => 1
  | 3 => 1
  | 4 => 1
  | 5 => 0
  | 6 => 0
  | 7 => 0

/-- Chunk column (0 for left, 1 for right) of the cell whose slot s is
touched by exchange_chunk. -/
def slotRoleCol : Fin 8 → Nat
  | 0 => 0
  | 1 => 0
  | 2 => 1
  | 3 => 1
  | 4 => 1
  | 5 => 1
  | 6 => 1
  | 7 => 0

/-- Embedding of the ingress pass of perform_ingress (src/square_grid.rs):
every interior cell merges its delivered inbound flows; padding cells are
untouched (their flow arrays are dropped). -/
def ingressCells {C D Fl : Type} (sim : SimRules C D Fl) (H W : Nat)
    (cells : Nat → Nat → C) (flows : Nat → Nat → Fin 8 → Fl) : Nat → Nat → C :=
  fun y x =>
    if interiorPos H W y x then sim.ingress (cells y x) (flows y x) else cells y x

/-- Embedding of SquareGrid::step_parallel (src/square_grid.rs): compute
diffs from the old cells, egress every interior cell (mutating it and
emitting flows), run the four exchange passes, then ingress the delivered
flows. -/
def step_parallel {C D Fl : Type} (sim : SimRules C D Fl) (H W : Nat)
    (cells : Nat → Nat → C) : Nat → Nat → C :=
  let diffs := computeDiffs sim H W cells
  let cells1 := egressCells sim H W cells diffs
  let flows := exchangeAll H W (egressFlows sim H W cells diffs)
  ingressCells sim H W cells1 flows

/-! ## The Game-of-Life simulation of src/tests/gol.rs -/

/-- Count of live cells in a 3 by 3 window, including the center, as
cells.iter().filter().count() does in src/tests/gol.rs. -/
def countLive (w : Fin 3 → Fin 3 → Bool) : Nat :=
  ((List.finRange 3).map fun i =>
    ((List.finRange 3).filter fun j => w i j).length).sum

/-- Embedding of the Gol simulation of src/tests/gol.rs: compute counts the
live cells of the window (a live center survives with a count of 3 to 4
including itself, a dead center is born with a count of exactly 3), egress
replaces the cell by its own diff and emits unit flows, ingress is a
no-op, and all three paddings are the quiet values. -/
def golSim : SimRules Bool Bool Unit where
  compute := fun w =>
    let n := countLive w
    if w 1 1 then decide (3 ≤ n ∧ n ≤ 4) else decide (n = 3)
  egress := fun _ dw => (dw 1 1, fun _ => ())
  ingress := fun c _ => c
  cellPadding := false
  diffPadding := false
  flowPadding := ()

/-- Initial 5 by 5 interior of the blinker test: live cells at row 2,
columns 1..3 (the horizontal blinker), as built by Array2::from_shape_fn in
src/tests/gol.rs. -/
def golBlinkerH : Nat → Nat → Bool :=
  fun y x => decide (y = 2 ∧ 1 ≤ x ∧ x ≤ 3)

/-- Expected 5 by 5 interior after one step: live cells at column 2,
rows 1..3 (the vertical blinker). -/
def golBlinkerV : Nat → Nat → Bool :=
  fun y x => decide (x = 2 ∧ 1 ≤ y ∧ y ≤ 3)

/-- Padded 7 by 7 starting grid of the blinker test, as SquareGrid::new
builds it. -/
def golGrid0 : Nat → Nat → Bool := paddedOf golSim 5 5 golBlinkerH

/-! ## Sequential visitation of the three per-cell passes (C3)

Each of the compute, egress and ingress passes writes, for every visited
cell position, a value that depends only on data fixed before the pass
started.  A sequential variant of a pass is a fold over an explicit list of
cell positions, writing one position per visit; the parallel passes above
are recovered when the list enumerates the interior exactly. -/

/-- Fold a pass over an explicit visitation order: each visited position p
is overwritten with f p (f reads only pre-pass data, never the state being
written). -/
def writeCells {α : Type} (f : Nat × Nat → α) (order : List (Nat × Nat))
    (init : Nat → Nat → α) : Nat → Nat → α :=
  order.foldl (fun st p y x => if y = p.1 ∧ x = p.2 then f p else st y x) init

/-- The interior positions of a padded H by W array, row-major. -/
def interiorList (H W : Nat) : List (Nat × Nat) :=
  (List.range' 1 (H - 2)).flatMap fun y => (List.range' 1 (W - 2)).map fun x => (y, x)

/-- One step of the engine with explicit per-cell visitation orders for the
compute, egress and ingress passes (the flow-exchange passes are the fixed
four-pass schedule of the source). -/
def stepSequential {C D Fl : Type} (sim : SimRules C D Fl) (H W : Nat)
    (cells : Nat → Nat → C) (o1 o2 o3 : List (Nat × Nat)) : Nat → Nat → C :=
  let diffs := writeCells (fun p => sim.compute (window cells p.1 p.2)) o1
    (fun _ _ => sim.diffPadding)
  let eg := writeCells (fun p => sim.egress (cells p.1 p.2) (window diffs p.1 p.2)) o2
    (fun y x => (cells y x, fun _ => sim.flowPadding))
  let cells1 := fun y x => (eg y x).1
  let flows := exchangeAll H W fun y x => (eg y x).2
  writeCells (fun p => sim.ingress (cells1 p.1 p.2) (flows p.1 p.2)) o3 cells1

/-! ## Toroidal wrap versus direct modulo lookup (C4)

The spec names refresh_padding as the single-tile toroidal border refresh
and SquareGrid::delta_index (src/grid.rs) as the per-axis modulo fallback
it must agree with.  refresh_padding itself is not part of src, so it is
modelled from the spec; the modulo side is built from the src
delta_index. -/

/-- Cell of a grid stored as a coordinate function, looked up by flat
row-major index with width stride w. -/
def flatGet {α : Type} (g : Nat → Nat → α) (w i : Nat) : α := g (i / w) (i % w)

/-- Modelled from the spec: refresh_padding is absent from src (only the
padded constructor and the modulo delta_index are present); the spec states
that it repopulates the border of the padded array by wraparound copy from
the opposite edge in single-tile toroidal mode.  Every position maps to the
interior cell it mirrors; interior positions map to themselves. -/
def refresh_padding {α : Type} (h w : Nat) (g : Nat → Nat → α) : Nat → Nat → α :=
  fun y x => g ((y + h - 1) % h + 1) ((x + w - 1) % w + 1)

/-- Neighbor window resolved directly by per-axis modulo arithmetic through
SquareGrid::delta_index, the comparison target named by the spec. -/
def moduloWindow {α : Type} (g : Nat → Nat → α) (h w y x : Nat) : Fin 3 → Fin 3 → α :=
  fun i j =>
    flatGet g w (squareGridDeltaIndex w h (x + y * w) ((j.val : Int) - 1, (i.val : Int) - 1))

/-- One step in which every neighbor lookup (cells, diffs, and delivered
flows) is performed by per-axis modulo arithmetic on the interior
coordinates, with no padding involved; the spec side of the toroidal wrap
equivalence. -/
def moduloStepSpec {C D Fl : Type} (sim : SimRules C D Fl) (h w : Nat)
    (orig : Nat → Nat → C) : Nat → Nat → C :=
  let diffsM := fun a b => sim.compute (moduloWindow orig h w a b)
  let egM := fun a b => sim.egress (orig a b) (moduloWindow diffsM h w a b)
  fun y x =>
    sim.ingress (egM y x).1 fun s =>
      let ni := squareGridDeltaIndex w h (x + y * w) (slotDelta s)
      (egM (ni / w) (ni % w)).2 (invSlot s)

/-- One step of the engine in single-tile toroidal mode: the cell padding is
refreshed before the compute phase, and (modelled from the spec, which has
padding cells participate in compute and egress because the torus has no
true boundary) the diff and flow paddings are refreshed by the same
wraparound before being read by the egress windows and the exchange
passes. -/
def toroidalStep {C D Fl : Type} (sim : SimRules C D Fl) (h w : Nat)
    (cells : Nat → Nat → C) : Nat → Nat → C :=
  let cellsR := refresh_padding h w cells
  let diffs := refresh_padding h w (computeDiffs sim (h + 2) (w + 2) cellsR)
  let cells1 := egressCells sim (h + 2) (w + 2) cellsR diffs
  let flows := refresh_padding h w (egressFlows sim (h + 2) (w + 2) cellsR diffs)
  ingressCells sim (h + 2) (w + 2) cells1 (exchangeAll (h + 2) (w + 2) flows)

/-! ## The multi-tile cell synchronization of src/multigrid.rs (C5) -/

/-- Contents of the 8 outbound channels written by sync_cells, one list of
serialized cells per direction (serialization is modelled at the value
level; the round-trip law makes the wire encoding irrelevant here). -/
structure SyncOut (C : Type) where
  outRight : List C
  outUpRight : List C
  outUp : List C
  outUpLeft : List C
  outLeft : List C
  outDownLeft : List C
  outDown : List C
  outDownRight : List C
deriving DecidableEq, Repr

/-- Outcome of one sync_cells call: either a successful return carrying the
written channels, or a panic reached after the writes so far. -/
inductive SyncResult (C : Type) where
  | ok : SyncOut C → SyncResult C
  | panicked : SyncOut C → SyncResult C
deriving DecidableEq, Repr

/-- Test for a successful sync_cells return. -/
def SyncResult.isOk {C : Type} : SyncResult C → Bool
  | .ok _ => true
  | .panicked _ => false

/-- Embedding of VonNeumannMultiSquareGrid::sync_cells (src/multigrid.rs):
the four corner cells are serialized into the four diagonal channels
(up-right, up-left, down-left, down-right, in that order), then the four
edges into the side channels (right column, top row, left column, bottom
row); every write into the list-modelled channels succeeds.  The function
then reaches the unimplemented receive path (a TODO in the source) and
panics unconditionally: the inbound streams and the padding cells are never
touched. -/
def sync_cells {C : Type} (width height : Nat) (cells : Nat → C) : SyncResult C :=
  SyncResult.panicked
    { outRight := (List.range height).map fun k => cells ((k + 1) * width - 1)
      outUpRight := [cells (width - 1)]
      outUp := (List.range width).map fun k => cells k
      outUpLeft := [cells 0]
      outLeft := (List.range height).map fun k => cells (k * width)
      outDownLeft := [cells ((height - 1) * width)]
      outDown := (List.range width).map fun k => cells (width * height - width + k)
      outDownRight := [cells (width * height - 1)] }

/-! ## Concrete probe simulation used by witnesses -/

/-- Small concrete simulation over Nat cells, diffs and flows, used to
instantiate the generic engine theorems on concrete inputs. -/
def probeSim : SimRules Nat Nat Nat where
  compute := fun w => w 1 1
  egress := fun c dw => (c + dw 1 1, fun k => c * 100 + k.val)
  ingress := fun c fl => c + fl 0
  cellPadding := 0
  diffPadding := 0
  flowPadding := 999

/-- Concrete cell array for the probe simulation. -/
def probeCells : Nat → Nat → Nat := fun y x => 10 * y + x

end Gridsim

/-- C6: for every direction d of both the 4-direction and the 8-direction sets,
inv (inv d) = d, turn_clockwise (turn_counterclockwise d) = d, total is even,
and the componentwise sum of all direction offset vectors is (0, 0). -/
theorem direction_algebra :
    (∀ d : Gridsim.NeumannDirection, d.inv.inv = d) ∧
    (∀ d : Gridsim.NeumannDirection, d.turnCounterclockwise.turnClockwise = d) ∧
    Gridsim.NeumannDirection.total % 2 = 0 ∧
    Gridsim.sumDeltas (Gridsim.NeumannDirection.directionsList.map
      Gridsim.NeumannDirection.delta) = (0, 0) ∧
    (∀ d : Gridsim.MooreDirection, d.inv.inv = d) ∧
    (∀ d : Gridsim.MooreDirection, d.turnCounterclockwise.turnClockwise = d) ∧
    Gridsim.MooreDirection.total % 2 = 0 ∧
    Gridsim.sumDeltas (Gridsim.MooreDirection.directionsList.map
      Gridsim.MooreDirection.delta) = (0, 0) := by
  refine ⟨?_, ?_, ?_, ?_, ?_, ?_, ?_, ?_⟩ <;> decide

/-- C7 counterexample: the MooreNeighbors FromIterator construction succeeds
on a sequence of 5 items (N = 4), contradicting the claim that construction
fails for any number of items other than exactly N. -/
theorem from_iterator_five_items_succeeds :
    Gridsim.MooreNeighbors.fromIter ([0, 1, 2, 3, 4] : List Nat) =
      some ⟨0, 1, 2, 3⟩ := by
  rfl

/-- C7 (amended): constructing a Neighborhood from a flat sequence succeeds
exactly when the sequence contains at least N items (4 resp. 8), assigning
the i-th of the first N items to the i-th direction in canonical order and
ignoring any extra items, and fails (panics on unwrap of None) for fewer. -/
theorem from_iterator_counts {T : Type} :
    (∀ l : List T,
      ((Gridsim.NeumannNeighbors.fromIter l).isSome ↔ 8 ≤ l.length) ∧
      ((Gridsim.MooreNeighbors.fromIter l).isSome ↔ 4 ≤ l.length)) ∧
    (∀ (r ur u ul le dl d dr : T) (rest : List T),
      Gridsim.NeumannNeighbors.fromIter (r :: ur :: u :: ul :: le :: dl :: d :: dr :: rest) =
        some ⟨r, ur, u, ul, le, dl, d, dr⟩) ∧
    (∀ (r u le d : T) (rest : List T),
      Gridsim.MooreNeighbors.fromIter (r :: u :: le :: d :: rest) = some ⟨r, u, le, d⟩) := by
  refine ⟨?_, fun _ _ _ _ _ _ _ _ _ => rfl, fun _ _ _ _ _ => rfl⟩
  intro l
  rcases l with _ | ⟨r, _ | ⟨ur, _ | ⟨u, _ | ⟨ul, _ | ⟨le, _ | ⟨dl, _ | ⟨d, _ | ⟨dr, rest⟩⟩⟩⟩⟩⟩⟩⟩ <;>
    simp [Gridsim.NeumannNeighbors.fromIter, Gridsim.MooreNeighbors.fromIter]

/-- C8: SquareGrid::new panics (fails) exactly when one of the two
dimensions of the supplied cell array is zero, before any grid exists, and
succeeds whenever both dimensions are at least 1. -/
theorem square_grid_new_dims {C D Fl : Type} (sim : Gridsim.SimRules C D Fl)
    (h w : Nat) (orig : Nat → Nat → C) :
    (Gridsim.squareGridNew sim h w orig).isSome ↔ (1 ≤ h ∧ 1 ≤ w) := by
  unfold Gridsim.squareGridNew
  split <;> simp_all

/-- C9 (code evaluated at the failing input): on a width-3, height-2 grid
holding cells 10..15 in row-major order, get_cell_at(0, 1) indexes
y * height + x = 2 and yields cell 12, while the row-major cell at (0, 1) is
get_cell(y * width + x) = get_cell(3) = cell 13; the two disagree, so
get_cell_at does not return the row-major cell used everywhere else. -/
theorem get_cell_at_bug :
    Gridsim.getCellAt ([10, 11, 12, 13, 14, 15] : List Nat) 2 0 1 = some 12 ∧
    Gridsim.getCell ([10, 11, 12, 13, 14, 15] : List Nat) (1 * 3 + 0) = some 13 ∧
    Gridsim.getCellAt ([10, 11, 12, 13, 14, 15] : List Nat) 2 0 1 ≠
      Gridsim.getCell ([10, 11, 12, 13, 14, 15] : List Nat) (1 * 3 + 0) := by
  refine ⟨rfl, rfl, by decide⟩

/-- C10 counterexample: on a 3 by 3 grid, moving left from flat index 3
(coordinates x = 0, y = 1) gives index 5 under the per-axis wrapping
delta_index of SquareGrid but index 2 under the flat wrapping delta_index
of VonNeumannMultiSquareGrid, so the two implementations disagree at the
border. -/
theorem delta_index_disagree :
    Gridsim.squareGridDeltaIndex 3 3 3 (-1, 0) = 5 ∧
    Gridsim.multiDeltaIndex 3 3 3 (-1, 0) = 2 ∧
    Gridsim.squareGridDeltaIndex 3 3 3 (-1, 0) ≠ Gridsim.multiDeltaIndex 3 3 3 (-1, 0) := by
  refine ⟨by decide, by decide, by decide⟩

open Gridsim

theorem writeCells_eq {α : Type} (f : Nat × Nat → α) (order : List (Nat × Nat))
    (init : Nat → Nat → α) :
    writeCells f order init = fun y x => if (y, x) ∈ order then f (y, x) else init y x := by
  induction order generalizing init with
  | nil => funext y x; simp [writeCells]
  | cons p t ih =>
    have hstep : writeCells f (p :: t) init =
        writeCells f t (fun y x => if y = p.1 ∧ x = p.2 then f p else init y x) := rfl
    rw [hstep, ih]
    funext y x
    by_cases ht : (y, x) ∈ t
    · simp [ht]
    · by_cases hp : (y, x) = p
      · have : y = p.1 ∧ x = p.2 := by rw [Prod.ext_iff] at hp; exact hp
        simp [ht, hp, this]
      · have : ¬(y = p.1 ∧ x = p.2) := by rw [Prod.ext_iff] at hp; exact hp
        simp [ht, hp, this]

theorem mem_interiorList (H W y x : Nat) :
    (y, x) ∈ interiorList H W ↔ interiorPos H W y x := by
  simp only [interiorList, List.mem_flatMap, List.mem_map, List.mem_range'_1, Prod.mk.injEq]
  constructor
  · rintro ⟨a, ⟨ha1, ha2⟩, b, ⟨hb1, hb2⟩, hba, hbb⟩
    exact ⟨by omega, by omega, by omega, by omega⟩
  · rintro ⟨h1, h2, h3, h4⟩
    exact ⟨y, ⟨h1, by omega⟩, x, ⟨h3, by omega⟩, rfl, rfl⟩

/-- C3: for a fixed old grid, the resulting grid after one step does not
depend on the per-cell visitation order of the compute, egress and ingress
passes: any permutations of the interior positions fed to the sequential
fold variant produce exactly the grid of the parallel step (the sequential
and parallel stepping variants in particular). -/
theorem step_order_independent {C D Fl : Type} (sim : SimRules C D Fl) (H W : Nat)
    (cells : Nat → Nat → C) (o1 o2 o3 : List (Nat × Nat))
    (h1 : o1.Perm (interiorList H W)) (h2 : o2.Perm (interiorList H W))
    (h3 : o3.Perm (interiorList H W)) :
    stepSequential sim H W cells o1 o2 o3 = step_parallel sim H W cells := by
  have mem1 : ∀ y x : Nat, ((y, x) ∈ o1) ↔ interiorPos H W y x := fun y x =>
    (h1.mem_iff).trans (mem_interiorList H W y x)
  have mem2 : ∀ y x : Nat, ((y, x) ∈ o2) ↔ interiorPos H W y x := fun y x =>
    (h2.mem_iff).trans (mem_interiorList H W y x)
  have mem3 : ∀ y x : Nat, ((y, x) ∈ o3) ↔ interiorPos H W y x := fun y x =>
    (h3.mem_iff).trans (mem_interiorList H W y x)
  have hd : writeCells (fun p => sim.compute (window cells p.1 p.2)) o1
      (fun _ _ => sim.diffPadding) = computeDiffs sim H W cells := by
    rw [writeCells_eq]
    funext y x
    simp only [mem1 y x, computeDiffs]
  have he1 : ∀ y x : Nat, (writeCells (fun p => sim.egress (cells p.1 p.2)
        (window (computeDiffs sim H W cells) p.1 p.2)) o2
      (fun y x => (cells y x, fun _ => sim.flowPadding)) y x).1 =
      egressCells sim H W cells (computeDiffs sim H W cells) y x := by
    intro y x
    rw [writeCells_eq]
    simp only [mem2 y x, egressCells]
    by_cases h : interiorPos H W y x
    · rw [if_pos h, if_pos h]
    · rw [if_neg h, if_neg h]
  have he2 : ∀ y x : Nat, (writeCells (fun p => sim.egress (cells p.1 p.2)
        (window (computeDiffs sim H W cells) p.1 p.2)) o2
      (fun y x => (cells y x, fun _ => sim.flowPadding)) y x).2 =
      egressFlows sim H W cells (computeDiffs sim H W cells) y x := by
    intro y x
    rw [writeCells_eq]
    simp only [mem2 y x, egressFlows]
    by_cases h : interiorPos H W y x
    · rw [if_pos h, if_pos h]
    · rw [if_neg h, if_neg h]
  have hflow : (fun y x => (writeCells (fun p => sim.egress (cells p.1 p.2)
        (window (computeDiffs sim H W cells) p.1 p.2)) o2
      (fun y x => (cells y x, fun _ => sim.flowPadding)) y x).2) =
      egressFlows sim H W cells (computeDiffs sim H W cells) :=
    funext fun y => funext fun x => he2 y x
  simp only [stepSequential, step_parallel, hd, hflow]
  rw [writeCells_eq]
  funext y x
  simp only [mem3 y x, ingressCells, he1 y x]

theorem exchange_chunk_tl {F : Type} (tl tr bl br : Fin 8 → F) (s : Fin 8) :
    (exchange_chunk tl tr bl br).1 s = if s = 7 then br 3 else tl s := by
  fin_cases s <;> rfl

theorem exchange_chunk_tr {F : Type} (tl tr bl br : Fin 8 → F) (s : Fin 8) :
    (exchange_chunk tl tr bl br).2.1 s =
      if s = 5 then bl 1 else if s = 6 then br 2 else tr s := by
  fin_cases s <;> rfl

theorem exchange_chunk_bl {F : Type} (tl tr bl br : Fin 8 → F) (s : Fin 8) :
    (exchange_chunk tl tr bl br).2.2.1 s =
      if s = 0 then br 4 else if s = 1 then tr 5 else bl s := by
  fin_cases s <;> rfl

theorem exchange_chunk_br {F : Type} (tl tr bl br : Fin 8 → F) (s : Fin 8) :
    (exchange_chunk tl tr bl br).2.2.2 s =
      if s = 2 then tr 6 else if s = 3 then tl 7 else if s = 4 then bl 0 else br s := by
  fin_cases s <;> rfl

theorem applyPass_untouched {F : Type} (H W y0 x0 : Nat) (g : Nat → Nat → Fin 8 → F)
    (y x : Nat) (s : Fin 8)
    (hmm : ¬(y % 2 = (y0 + slotRoleRow s) % 2 ∧ x % 2 = (x0 + slotRoleCol s) % 2)) :
    applyPass H W y0 x0 g y x s = g y x s := by
  by_cases hin : inCompleteChunk H W y0 x0 y x
  · obtain ⟨hy0, hx0, hH, hW⟩ := hin
    simp only [applyPass, if_pos (⟨hy0, hx0, hH, hW⟩ : inCompleteChunk H W y0 x0 y x)]
    have hcb1 : chunkBase y0 y % 2 = y0 % 2 := by unfold chunkBase; omega
    have hcb2 : y = chunkBase y0 y ∨ y = chunkBase y0 y + 1 := by unfold chunkBase; omega
    have hcb3 : chunkBase x0 x % 2 = x0 % 2 := by unfold chunkBase; omega
    have hcb4 : x = chunkBase x0 x ∨ x = chunkBase x0 x + 1 := by unfold chunkBase; omega
    rcases hcb2 with hy | hy <;> rcases hcb4 with hx | hx
    · rw [if_pos hy, if_pos hx, exchange_chunk_tl]
      have h7 : s ≠ 7 := by
        intro h
        subst h
        exact hmm ⟨by simp only [slotRoleRow]; omega, by simp only [slotRoleCol]; omega⟩
      rw [if_neg h7, ← hy, ← hx]
    · rw [if_pos hy, if_neg (by omega : ¬x = chunkBase x0 x), exchange_chunk_tr]
      have h5 : s ≠ 5 := by
        intro h
        subst h
        exact hmm ⟨by simp only [slotRoleRow]; omega, by simp only [slotRoleCol]; omega⟩
      have h6 : s ≠ 6 := by
        intro h
        subst h
        exact hmm ⟨by simp only [slotRoleRow]; omega, by simp only [slotRoleCol]; omega⟩
      rw [if_neg h5, if_neg h6, ← hy]
      have : chunkBase x0 x + 1 = x := by omega
      rw [this]
    · rw [if_neg (by omega : ¬y = chunkBase y0 y), if_pos hx, exchange_chunk_bl]
      have h0 : s ≠ 0 := by
        intro h
        subst h
        exact hmm ⟨by simp only [slotRoleRow]; omega, by simp only [slotRoleCol]; omega⟩
      have h1 : s ≠ 1 := by
        intro h
        subst h
        exact hmm ⟨by simp only [slotRoleRow]; omega, by simp only [slotRoleCol]; omega⟩
      rw [if_neg h0, if_neg h1, ← hx]
      have : chunkBase y0 y + 1 = y := by omega
      rw [this]
    · rw [if_neg (by omega : ¬y = chunkBase y0 y), if_neg (by omega : ¬x = chunkBase x0 x),
        exchange_chunk_br]
      have h2 : s ≠ 2 := by
        intro h
        subst h
        exact hmm ⟨by simp only [slotRoleRow]; omega, by simp only [slotRoleCol]; omega⟩
      have h3 : s ≠ 3 := by
        intro h
        subst h
        exact hmm ⟨by simp only [slotRoleRow]; omega, by simp only [slotRoleCol]; omega⟩
      have h4 : s ≠ 4 := by
        intro h
        subst h
        exact hmm ⟨by simp only [slotRoleRow]; omega, by simp only [slotRoleCol]; omega⟩
      rw [if_neg h2, if_neg h3, if_neg h4]
      have ey : chunkBase y0 y + 1 = y := by omega
      have ex : chunkBase x0 x + 1 = x := by omega
      rw [ey, ex]
  · simp only [applyPass, if_neg hin]

theorem applyPass_swap {F : Type} (H W y0 x0 : Nat) (g : Nat → Nat → Fin 8 → F)
    (y x : Nat) (s : Fin 8)
    (hpy : y % 2 = (y0 + slotRoleRow s) % 2) (hpx : x % 2 = (x0 + slotRoleCol s) % 2)
    (hy0 : y0 ≤ y) (hx0 : x0 ≤ x)
    (hH : chunkBase y0 y + 1 < H) (hW : chunkBase x0 x + 1 < W) :
    applyPass H W y0 x0 g y x s =
      g (chunkBase y0 y + slotRoleRow (invSlot s)) (chunkBase x0 x + slotRoleCol (invSlot s))
        (invSlot s) := by
  simp only [applyPass, if_pos (⟨hy0, hx0, hH, hW⟩ : inCompleteChunk H W y0 x0 y x)]
  have hcb1 : chunkBase y0 y % 2 = y0 % 2 := by unfold chunkBase; omega
  have hcb2 : y = chunkBase y0 y ∨ y = chunkBase y0 y + 1 := by unfold chunkBase; omega
  have hcb3 : chunkBase x0 x % 2 = x0 % 2 := by unfold chunkBase; omega
  have hcb4 : x = chunkBase x0 x ∨ x = chunkBase x0 x + 1 := by unfold chunkBase; omega
  fin_cases s
  · replace hpy : y % 2 = (y0 + 1) % 2 := hpy
    replace hpx : x % 2 = (x0 + 0) % 2 := hpx
    have hx : x = chunkBase x0 x := by omega
    rw [if_neg (by omega : ¬y = chunkBase y0 y), if_pos hx]
    rfl
  · replace hpy : y % 2 = (y0 + 1) % 2 := hpy
    replace hpx : x % 2 = (x0 + 0) % 2 := hpx
    have hx : x = chunkBase x0 x := by omega
    rw [if_neg (by omega : ¬y = chunkBase y0 y), if_pos hx]
    rfl
  · replace hpy : y % 2 = (y0 + 1) % 2 := hpy
    replace hpx : x % 2 = (x0 + 1) % 2 := hpx
    rw [if_neg (by omega : ¬y = chunkBase y0 y), if_neg (by omega : ¬x = chunkBase x0 x)]
    rfl
  · replace hpy : y % 2 = (y0 + 1) % 2 := hpy
    replace hpx : x % 2 = (x0 + 1) % 2 := hpx
    rw [if_neg (by omega : ¬y = chunkBase y0 y), if_neg (by omega : ¬x = chunkBase x0 x)]
    rfl
  · replace hpy : y % 2 = (y0 + 1) % 2 := hpy
    replace hpx : x % 2 = (x0 + 1) % 2 := hpx
    rw [if_neg (by omega : ¬y = chunkBase y0 y), if_neg (by omega : ¬x = chunkBase x0 x)]
    rfl
  · replace hpy : y % 2 = (y0 + 0) % 2 := hpy
    replace hpx : x % 2 = (x0 + 1) % 2 := hpx
    have hy : y = chunkBase y0 y := by omega
    rw [if_pos hy, if_neg (by omega : ¬x = chunkBase x0 x)]
    rfl
  · replace hpy : y % 2 = (y0 + 0) % 2 := hpy
    replace hpx : x % 2 = (x0 + 1) % 2 := hpx
    have hy : y = chunkBase y0 y := by omega
    rw [if_pos hy, if_neg (by omega : ¬x = chunkBase x0 x)]
    rfl
  · replace hpy : y % 2 = (y0 + 0) % 2 := hpy
    replace hpx : x % 2 = (x0 + 0) % 2 := hpx
    have hy : y = chunkBase y0 y := by omega
    have hx : x = chunkBase x0 x := by omega
    rw [if_pos hy, if_pos hx]
    rfl

theorem exchangeAll_swap {F : Type} (H W : Nat) (g : Nat → Nat → Fin 8 → F)
    (By Bx : Nat) (s : Fin 8) (py px : Nat)
    (hpy2 : py < 2) (hpx2 : px < 2) (hpyle : py ≤ By) (hpxle : px ≤ Bx)
    (hpar1 : By % 2 = (py + slotRoleRow s) % 2) (hpar2 : Bx % 2 = (px + slotRoleCol s) % 2)
    (hH : chunkBase py By + 1 < H) (hW : chunkBase px Bx + 1 < W) :
    exchangeAll H W g By Bx s =
      g (chunkBase py By + slotRoleRow (invSlot s)) (chunkBase px Bx + slotRoleCol (invSlot s))
        (invSlot s) := by
  have hA1 : (chunkBase py By + slotRoleRow (invSlot s)) % 2 =
      (py + slotRoleRow (invSlot s)) % 2 := by unfold chunkBase; omega
  have hA2 : (chunkBase px Bx + slotRoleCol (invSlot s)) % 2 =
      (px + slotRoleCol (invSlot s)) % 2 := by unfold chunkBase; omega
  simp only [exchangeAll]
  interval_cases py <;> interval_cases px
  · rw [applyPass_untouched _ _ _ _ _ _ _ _ (by omega :
      ¬(By % 2 = (1 + slotRoleRow s) % 2 ∧ Bx % 2 = (1 + slotRoleCol s) % 2))]
    rw [applyPass_untouched _ _ _ _ _ _ _ _ (by omega :
      ¬(By % 2 = (1 + slotRoleRow s) % 2 ∧ Bx % 2 = (0 + slotRoleCol s) % 2))]
    rw [applyPass_untouched _ _ _ _ _ _ _ _ (by omega :
      ¬(By % 2 = (0 + slotRoleRow s) % 2 ∧ Bx % 2 = (1 + slotRoleCol s) % 2))]
    exact applyPass_swap H W 0 0 g By Bx s hpar1 hpar2 hpyle hpxle hH hW
  · rw [applyPass_untouched _ _ _ _ _ _ _ _ (by omega :
      ¬(By % 2 = (1 + slotRoleRow s) % 2 ∧ Bx % 2 = (1 + slotRoleCol s) % 2))]
    rw [applyPass_untouched _ _ _ _ _ _ _ _ (by omega :
      ¬(By % 2 = (1 + slotRoleRow s) % 2 ∧ Bx % 2 = (0 + slotRoleCol s) % 2))]
    rw [applyPass_swap H W 0 1 _ By Bx s hpar1 hpar2 hpyle hpxle hH hW]
    exact applyPass_untouched _ _ _ _ _ _ _ _ (by omega :
      ¬((chunkBase 0 By + slotRoleRow (invSlot s)) % 2 = (0 + slotRoleRow (invSlot s)) % 2 ∧
        (chunkBase 1 Bx + slotRoleCol (invSlot s)) % 2 = (0 + slotRoleCol (invSlot s)) % 2))
  · rw [applyPass_untouched _ _ _ _ _ _ _ _ (by omega :
      ¬(By % 2 = (1 + slotRoleRow s) % 2 ∧ Bx % 2 = (1 + slotRoleCol s) % 2))]
    rw [applyPass_swap H W 1 0 _ By Bx s hpar1 hpar2 hpyle hpxle hH hW]
    rw [applyPass_untouched _ _ _ _ _ _ _ _ (by omega :
      ¬((chunkBase 1 By + slotRoleRow (invSlot s)) % 2 = (0 + slotRoleRow (invSlot s)) % 2 ∧
        (chunkBase 0 Bx + slotRoleCol (invSlot s)) % 2 = (1 + slotRoleCol (invSlot s)) % 2))]
    exact applyPass_untouched _ _ _ _ _ _ _ _ (by omega :
      ¬((chunkBase 1 By + slotRoleRow (invSlot s)) % 2 = (0 + slotRoleRow (invSlot s)) % 2 ∧
        (chunkBase 0 Bx + slotRoleCol (invSlot s)) % 2 = (0 + slotRoleCol (invSlot s)) % 2))
  · rw [applyPass_swap H W 1 1 _ By Bx s hpar1 hpar2 hpyle hpxle hH hW]
    rw [applyPass_untouched _ _ _ _ _ _ _ _ (by omega :
      ¬((chunkBase 1 By + slotRoleRow (invSlot s)) % 2 = (1 + slotRoleRow (invSlot s)) % 2 ∧
        (chunkBase 1 Bx + slotRoleCol (invSlot s)) % 2 = (0 + slotRoleCol (invSlot s)) % 2))]
    rw [applyPass_untouched _ _ _ _ _ _ _ _ (by omega :
      ¬((chunkBase 1 By + slotRoleRow (invSlot s)) % 2 = (0 + slotRoleRow (invSlot s)) % 2 ∧
        (chunkBase 1 Bx + slotRoleCol (invSlot s)) % 2 = (1 + slotRoleCol (invSlot s)) % 2))]
    exact applyPass_untouched _ _ _ _ _ _ _ _ (by omega :
      ¬((chunkBase 1 By + slotRoleRow (invSlot s)) % 2 = (0 + slotRoleRow (invSlot s)) % 2 ∧
        (chunkBase 1 Bx + slotRoleCol (invSlot s)) % 2 = (0 + slotRoleCol (invSlot s)) % 2))

theorem exchangeAll_recv {F : Type} (H W : Nat) (g : Nat → Nat → Fin 8 → F)
    (By Bx : Nat) (s : Fin 8) (Ay Ax : Nat)
    (hBy1 : 1 ≤ By) (hBy2 : By ≤ H - 2) (hBx1 : 1 ≤ Bx) (hBx2 : Bx ≤ W - 2)
    (hAy : (Ay : Int) = (By : Int) + (slotDelta s).2)
    (hAx : (Ax : Int) = (Bx : Int) + (slotDelta s).1) :
    exchangeAll H W g By Bx s = g Ay Ax (invSlot s) := by
  have hH3 : 3 ≤ H := by omega
  have hW3 : 3 ≤ W := by omega
  fin_cases s
  · replace hAy : (Ay : Int) = (By : Int) + (0 : Int) := hAy
    replace hAx : (Ax : Int) = (Bx : Int) + (1 : Int) := hAx
    rw [exchangeAll_swap H W g By Bx _ ((By + 1) % 2) ((Bx + 0) % 2) (by omega) (by omega)
      (by omega) (by omega)
      (by show By % 2 = ((By + 1) % 2 + 1) % 2
          omega)
      (by show Bx % 2 = ((Bx + 0) % 2 + 0) % 2
          omega)
      (by unfold chunkBase; omega) (by unfold chunkBase; omega)]
    show g (chunkBase ((By + 1) % 2) By + 1) (chunkBase ((Bx + 0) % 2) Bx + 1) (invSlot 0) =
      g Ay Ax (invSlot 0)
    have e1 : chunkBase ((By + 1) % 2) By + 1 = Ay := by unfold chunkBase; omega
    have e2 : chunkBase ((Bx + 0) % 2) Bx + 1 = Ax := by unfold chunkBase; omega
    rw [e1, e2]
  · replace hAy : (Ay : Int) = (By : Int) + (-1 : Int) := hAy
    replace hAx : (Ax : Int) = (Bx : Int) + (1 : Int) := hAx
    rw [exchangeAll_swap H W g By Bx _ ((By + 1) % 2) ((Bx + 0) % 2) (by omega) (by omega)
      (by omega) (by omega)
      (by show By % 2 = ((By + 1) % 2 + 1) % 2
          omega)
      (by show Bx % 2 = ((Bx + 0) % 2 + 0) % 2
          omega)
      (by unfold chunkBase; omega) (by unfold chunkBase; omega)]
    show g (chunkBase ((By + 1) % 2) By + 0) (chunkBase ((Bx + 0) % 2) Bx + 1) (invSlot 1) =
      g Ay Ax (invSlot 1)
    have e1 : chunkBase ((By + 1) % 2) By + 0 = Ay := by unfold chunkBase; omega
    have e2 : chunkBase ((Bx + 0) % 2) Bx + 1 = Ax := by unfold chunkBase; omega
    rw [e1, e2]
  · replace hAy : (Ay : Int) = (By : Int) + (-1 : Int) := hAy
    replace hAx : (Ax : Int) = (Bx : Int) + (0 : Int) := hAx
    rw [exchangeAll_swap H W g By Bx _ ((By + 1) % 2) ((Bx + 1) % 2) (by omega) (by omega)
      (by omega) (by omega)
      (by show By % 2 = ((By + 1) % 2 + 1) % 2
          omega)
      (by show Bx % 2 = ((Bx + 1) % 2 + 1) % 2
          omega)
      (by unfold chunkBase; omega) (by unfold chunkBase; omega)]
    show g (chunkBase ((By + 1) % 2) By + 0) (chunkBase ((Bx + 1) % 2) Bx + 1) (invSlot 2) =
      g Ay Ax (invSlot 2)
    have e1 : chunkBase ((By + 1) % 2) By + 0 = Ay := by unfold chunkBase; omega
    have e2 : chunkBase ((Bx + 1) % 2) Bx + 1 = Ax := by unfold chunkBase; omega
    rw [e1, e2]
  · replace hAy : (Ay : Int) = (By : Int) + (-1 : Int) := hAy
    replace hAx : (Ax : Int) = (Bx : Int) + (-1 : Int) := hAx
    rw [exchangeAll_swap H W g By Bx _ ((By + 1) % 2) ((Bx + 1) % 2) (by omega) (by omega)
      (by omega) (by omega)
      (by show By % 2 = ((By + 1) % 2 + 1) % 2
          omega)
      (by show Bx % 2 = ((Bx + 1) % 2 + 1) % 2
          omega)
      (by unfold chunkBase; omega) (by unfold chunkBase; omega)]
    show g (chunkBase ((By + 1) % 2) By + 0) (chunkBase ((Bx + 1) % 2) Bx + 0) (invSlot 3) =
      g Ay Ax (invSlot 3)
    have e1 : chunkBase ((By + 1) % 2) By + 0 = Ay := by unfold chunkBase; omega
    have e2 : chunkBase ((Bx + 1) % 2) Bx + 0 = Ax := by unfold chunkBase; omega
    rw [e1, e2]
  · replace hAy : (Ay : Int) = (By : Int) + (0 : Int) := hAy
    replace hAx : (Ax : Int) = (Bx : Int) + (-1 : Int) := hAx
    rw [exchangeAll_swap H W g By Bx _ ((By + 1) % 2) ((Bx + 1) % 2) (by omega) (by omega)
      (by omega) (by omega)
      (by show By % 2 = ((By + 1) % 2 + 1) % 2
          omega)
      (by show Bx % 2 = ((Bx + 1) % 2 + 1) % 2
          omega)
      (by unfold chunkBase; omega) (by unfold chunkBase; omega)]
    show g (chunkBase ((By + 1) % 2) By + 1) (chunkBase ((Bx + 1) % 2) Bx + 0) (invSlot 4) =
      g Ay Ax (invSlot 4)
    have e1 : chunkBase ((By + 1) % 2) By + 1 = Ay := by unfold chunkBase; omega
    have e2 : chunkBase ((Bx + 1) % 2) Bx + 0 = Ax := by unfold chunkBase; omega
    rw [e1, e2]
  · replace hAy : (Ay : Int) = (By : Int) + (1 : Int) := hAy
    replace hAx : (Ax : Int) = (Bx : Int) + (-1 : Int) := hAx
    rw [exchangeAll_swap H W g By Bx _ ((By + 0) % 2) ((Bx + 1) % 2) (by omega) (by omega)
      (by omega) (by omega)
      (by show By % 2 = ((By + 0) % 2 + 0) % 2
          omega)
      (by show Bx % 2 = ((Bx + 1) % 2 + 1) % 2
          omega)
      (by unfold chunkBase; omega) (by unfold chunkBase; omega)]
    show g (chunkBase ((By + 0) % 2) By + 1) (chunkBase ((Bx + 1) % 2) Bx + 0) (invSlot 5) =
      g Ay Ax (invSlot 5)
    have e1 : chunkBase ((By + 0) % 2) By + 1 = Ay := by unfold chunkBase; omega
    have e2 : chunkBase ((Bx + 1) % 2) Bx + 0 = Ax := by unfold chunkBase; omega
    rw [e1, e2]
  · replace hAy : (Ay : Int) = (By : Int) + (1 : Int) := hAy
    replace hAx : (Ax : Int) = (Bx : Int) + (0 : Int) := hAx
    rw [exchangeAll_swap H W g By Bx _ ((By + 0) % 2) ((Bx + 1) % 2) (by omega) (by omega)
      (by omega) (by omega)
      (by show By % 2 = ((By + 0) % 2 + 0) % 2
          omega)
      (by show Bx % 2 = ((Bx + 1) % 2 + 1) % 2
          omega)
      (by unfold chunkBase; omega) (by unfold chunkBase; omega)]
    show g (chunkBase ((By + 0) % 2) By + 1) (chunkBase ((Bx + 1) % 2) Bx + 1) (invSlot 6) =
      g Ay Ax (invSlot 6)
    have e1 : chunkBase ((By + 0) % 2) By + 1 = Ay := by unfold chunkBase; omega
    have e2 : chunkBase ((Bx + 1) % 2) Bx + 1 = Ax := by unfold chunkBase; omega
    rw [e1, e2]
  · replace hAy : (Ay : Int) = (By : Int) + (1 : Int) := hAy
    replace hAx : (Ax : Int) = (Bx : Int) + (1 : Int) := hAx
    rw [exchangeAll_swap H W g By Bx _ ((By + 0) % 2) ((Bx + 0) % 2) (by omega) (by omega)
      (by omega) (by omega)
      (by show By % 2 = ((By + 0) % 2 + 0) % 2
          omega)
      (by show Bx % 2 = ((Bx + 0) % 2 + 0) % 2
          omega)
      (by unfold chunkBase; omega) (by unfold chunkBase; omega)]
    show g (chunkBase ((By + 0) % 2) By + 1) (chunkBase ((Bx + 0) % 2) Bx + 1) (invSlot 7) =
      g Ay Ax (invSlot 7)
    have e1 : chunkBase ((By + 0) % 2) By + 1 = Ay := by unfold chunkBase; omega
    have e2 : chunkBase ((Bx + 0) % 2) Bx + 1 = Ax := by unfold chunkBase; omega
    rw [e1, e2]

theorem invSlot_invSlot : ∀ d : Fin 8, invSlot (invSlot d) = d := by decide

theorem slotDelta_invSlot : ∀ d : Fin 8,
    slotDelta (invSlot d) = (-(slotDelta d).1, -(slotDelta d).2) := by decide

/-- C1: for every interior cell A = (y, x) of a padded grid and every one
of the 8 directions d, with the neighbor B = A + delta d also interior, the
flow A emits toward d during egress is exactly the value delivered to B in
its inbound slot for direction inv d by the four offset block-swap passes,
i.e. the value B consumes from that slot during ingress. -/
theorem flow_roundtrip {C D Fl : Type} (sim : SimRules C D Fl) (H W : Nat)
    (cells : Nat → Nat → C) (y x : Nat) (d : Fin 8) (By Bx : Nat)
    (hy1 : 1 ≤ y) (hy2 : y ≤ H - 2) (hx1 : 1 ≤ x) (hx2 : x ≤ W - 2)
    (hBy1 : 1 ≤ By) (hBy2 : By ≤ H - 2) (hBx1 : 1 ≤ Bx) (hBx2 : Bx ≤ W - 2)
    (hBy : (By : Int) = (y : Int) + (slotDelta d).2)
    (hBx : (Bx : Int) = (x : Int) + (slotDelta d).1) :
    exchangeAll H W (egressFlows sim H W cells (computeDiffs sim H W cells)) By Bx (invSlot d) =
      (sim.egress (cells y x) (window (computeDiffs sim H W cells) y x)).2 d := by
  have key := exchangeAll_recv H W (egressFlows sim H W cells (computeDiffs sim H W cells))
    By Bx (invSlot d) y x hBy1 hBy2 hBx1 hBx2
    (by rw [slotDelta_invSlot d]; omega) (by rw [slotDelta_invSlot d]; omega)
  rw [invSlot_invSlot d] at key
  rw [key]
  unfold egressFlows
  rw [if_pos (⟨hy1, hy2, hx1, hx2⟩ : interiorPos H W y x)]

/-- C1 witness: the round trip evaluated on the probe simulation on a
4 by 4 padded grid, for cell (1, 1) and direction 7 (down-right). -/
theorem flow_roundtrip_witness :
    ((2 : Int) = (1 : Int) + (slotDelta 7).2) ∧
    ((2 : Int) = (1 : Int) + (slotDelta 7).1) ∧
    exchangeAll 4 4 (egressFlows probeSim 4 4 probeCells
        (computeDiffs probeSim 4 4 probeCells)) 2 2 (invSlot 7) =
      (probeSim.egress (probeCells 1 1)
        (window (computeDiffs probeSim 4 4 probeCells) 1 1)).2 7 :=
  ⟨by decide, by decide,
    flow_roundtrip probeSim 4 4 probeCells 1 1 7 2 2
      (by decide) (by decide) (by decide) (by decide) (by decide) (by decide)
      (by decide) (by decide) (by decide) (by decide)⟩

theorem wrap_window_eq {α : Type} (g : Nat → Nat → α) (h w : Nat)
    (_hh : 1 ≤ h) (hw : 1 ≤ w) (y x : Nat) (_hy : y < h) (hx : x < w) (i j : Fin 3) :
    refresh_padding h w g (y + i.val) (x + j.val) =
      flatGet (fun a b => g (a + 1) (b + 1)) w
        (squareGridDeltaIndex w h (x + y * w) ((j.val : Int) - 1, (i.val : Int) - 1)) := by
  unfold refresh_padding flatGet squareGridDeltaIndex
  simp only []
  have e1 : (x + y * w) % w = x := by
    rw [Nat.add_mul_mod_self_right]; exact Nat.mod_eq_of_lt hx
  have e2 : (x + y * w) / w = y := by
    rw [Nat.add_mul_div_right _ _ (show 0 < w by omega), Nat.div_eq_of_lt hx]; omega
  rw [e1, e2]
  have e3 : ((w : Int) + ((j.val : Int) - 1) + (x : Int)).toNat = x + j.val + w - 1 := by
    omega
  have e4 : ((h : Int) + ((i.val : Int) - 1) + (y : Int)).toNat = y + i.val + h - 1 := by
    omega
  rw [e3, e4]
  have hx2w : (x + j.val + w - 1) % w < w := Nat.mod_lt _ (by omega)
  have e5 : ((x + j.val + w - 1) % w + (y + i.val + h - 1) % h * w) / w =
      (y + i.val + h - 1) % h := by
    rw [Nat.add_mul_div_right _ _ (show 0 < w by omega), Nat.div_eq_of_lt hx2w]; omega
  have e6 : ((x + j.val + w - 1) % w + (y + i.val + h - 1) % h * w) % w =
      (x + j.val + w - 1) % w := by
    rw [Nat.add_mul_mod_self_right]; exact Nat.mod_eq_of_lt hx2w
  rw [e5, e6]

theorem refresh_padding_interior {α : Type} (h w : Nat) (g : Nat → Nat → α)
    (a b : Nat) (ha : a < h) (hb : b < w) :
    refresh_padding h w g (a + 1) (b + 1) = g (a + 1) (b + 1) := by
  unfold refresh_padding
  have e1 : a + 1 + h - 1 = a + h := by omega
  have e2 : (a + h) % h = a := by rw [Nat.add_mod_right]; exact Nat.mod_eq_of_lt ha
  have e3 : b + 1 + w - 1 = b + w := by omega
  have e4 : (b + w) % w = b := by rw [Nat.add_mod_right]; exact Nat.mod_eq_of_lt hb
  rw [e1, e2, e3, e4]

theorem paddedOf_interior {C D Fl : Type} (sim : SimRules C D Fl) (h w : Nat)
    (orig : Nat → Nat → C) (a b : Nat) (ha : a < h) (hb : b < w) :
    paddedOf sim h w orig (a + 1) (b + 1) = orig a b := by
  unfold paddedOf
  rw [if_pos ⟨by omega, by omega, by omega, by omega⟩]
  simp

theorem delta_index_lt (w h : Nat) (hw : 1 ≤ w) (hh : 1 ≤ h) (i : Nat) (d : Int × Int) :
    squareGridDeltaIndex w h i d < w * h := by
  unfold squareGridDeltaIndex
  simp only []
  have h1 : ((w : Int) + d.1 + (i % w : Nat)).toNat % w < w := Nat.mod_lt _ (by omega)
  have h2 : ((h : Int) + d.2 + (i / w : Nat)).toNat % h < h := Nat.mod_lt _ (by omega)
  calc ((w : Int) + d.1 + (i % w : Nat)).toNat % w +
        ((h : Int) + d.2 + (i / w : Nat)).toNat % h * w
      < (((h : Int) + d.2 + (i / w : Nat)).toNat % h + 1) * w := by
        rw [add_mul, one_mul]; omega
    _ ≤ h * w := Nat.mul_le_mul_right w (by omega)
    _ = w * h := Nat.mul_comm h w

theorem delta_index_split (w h x y : Nat) (hw : 1 ≤ w) (_hh : 1 ≤ h)
    (hx : x < w) (_hy : y < h) (d : Int × Int) :
    squareGridDeltaIndex w h (x + y * w) d / w = ((h : Int) + d.2 + (y : Int)).toNat % h ∧
    squareGridDeltaIndex w h (x + y * w) d % w = ((w : Int) + d.1 + (x : Int)).toNat % w := by
  unfold squareGridDeltaIndex
  simp only []
  have e1 : (x + y * w) % w = x := by
    rw [Nat.add_mul_mod_self_right]; exact Nat.mod_eq_of_lt hx
  have e2 : (x + y * w) / w = y := by
    rw [Nat.add_mul_div_right _ _ (show 0 < w by omega), Nat.div_eq_of_lt hx]; omega
  rw [e1, e2]
  have hx2 : ((w : Int) + d.1 + (x : Int)).toNat % w < w := Nat.mod_lt _ (by omega)
  constructor
  · rw [Nat.add_mul_div_right _ _ (show 0 < w by omega), Nat.div_eq_of_lt hx2]; omega
  · rw [Nat.add_mul_mod_self_right]; exact Nat.mod_eq_of_lt hx2

theorem toroidal_cells_window {C D Fl : Type} (sim : SimRules C D Fl) (h w : Nat)
    (orig : Nat → Nat → C) (hh : 1 ≤ h) (hw : 1 ≤ w)
    (a b : Nat) (ha : a < h) (hb : b < w) :
    window (refresh_padding h w (paddedOf sim h w orig)) (a + 1) (b + 1) =
      moduloWindow orig h w a b := by
  funext i j
  show refresh_padding h w (paddedOf sim h w orig) (a + i.val) (b + j.val) = _
  rw [wrap_window_eq (paddedOf sim h w orig) h w hh hw a b ha hb i j]
  unfold flatGet moduloWindow
  beta_reduce
  have hlt := delta_index_lt w h hw hh (b + a * w)
    ((j.val : Int) - 1, (i.val : Int) - 1)
  have h1 : squareGridDeltaIndex w h (b + a * w) ((j.val : Int) - 1, (i.val : Int) - 1) / w
      < h := Nat.div_lt_of_lt_mul hlt
  have h2 : squareGridDeltaIndex w h (b + a * w) ((j.val : Int) - 1, (i.val : Int) - 1) % w
      < w := Nat.mod_lt _ (by omega)
  rw [paddedOf_interior sim h w orig _ _ h1 h2]
  rfl

theorem toroidal_diffs_eq {C D Fl : Type} (sim : SimRules C D Fl) (h w : Nat)
    (orig : Nat → Nat → C) (hh : 1 ≤ h) (hw : 1 ≤ w)
    (a b : Nat) (ha : a < h) (hb : b < w) :
    computeDiffs sim (h + 2) (w + 2) (refresh_padding h w (paddedOf sim h w orig))
        (a + 1) (b + 1) =
      sim.compute (moduloWindow orig h w a b) := by
  unfold computeDiffs
  rw [if_pos (⟨by omega, by omega, by omega, by omega⟩ :
    interiorPos (h + 2) (w + 2) (a + 1) (b + 1))]
  rw [toroidal_cells_window sim h w orig hh hw a b ha hb]

theorem toroidal_diffsT_window {C D Fl : Type} (sim : SimRules C D Fl) (h w : Nat)
    (orig : Nat → Nat → C) (hh : 1 ≤ h) (hw : 1 ≤ w)
    (a b : Nat) (ha : a < h) (hb : b < w) :
    window (refresh_padding h w
        (computeDiffs sim (h + 2) (w + 2) (refresh_padding h w (paddedOf sim h w orig))))
        (a + 1) (b + 1) =
      moduloWindow (fun p q => sim.compute (moduloWindow orig h w p q)) h w a b := by
  funext i j
  show refresh_padding h w
      (computeDiffs sim (h + 2) (w + 2) (refresh_padding h w (paddedOf sim h w orig)))
      (a + i.val) (b + j.val) = _
  rw [wrap_window_eq _ h w hh hw a b ha hb i j]
  unfold flatGet moduloWindow
  beta_reduce
  have hlt := delta_index_lt w h hw hh (b + a * w)
    ((j.val : Int) - 1, (i.val : Int) - 1)
  have h1 : squareGridDeltaIndex w h (b + a * w) ((j.val : Int) - 1, (i.val : Int) - 1) / w
      < h := Nat.div_lt_of_lt_mul hlt
  have h2 : squareGridDeltaIndex w h (b + a * w) ((j.val : Int) - 1, (i.val : Int) - 1) % w
      < w := Nat.mod_lt _ (by omega)
  rw [toroidal_diffs_eq sim h w orig hh hw _ _ h1 h2]
  rfl

theorem toroidal_egress_eq {C D Fl : Type} (sim : SimRules C D Fl) (h w : Nat)
    (orig : Nat → Nat → C) (hh : 1 ≤ h) (hw : 1 ≤ w)
    (a b : Nat) (ha : a < h) (hb : b < w) :
    sim.egress (refresh_padding h w (paddedOf sim h w orig) (a + 1) (b + 1))
        (window (refresh_padding h w (computeDiffs sim (h + 2) (w + 2)
          (refresh_padding h w (paddedOf sim h w orig)))) (a + 1) (b + 1)) =
      sim.egress (orig a b)
        (moduloWindow (fun p q => sim.compute (moduloWindow orig h w p q)) h w a b) := by
  rw [refresh_padding_interior h w _ a b ha hb, paddedOf_interior sim h w orig a b ha hb,
    toroidal_diffsT_window sim h w orig hh hw a b ha hb]

theorem slotDelta_bounds : ∀ s : Fin 8,
    -1 ≤ (slotDelta s).1 ∧ (slotDelta s).1 ≤ 1 ∧ -1 ≤ (slotDelta s).2 ∧ (slotDelta s).2 ≤ 1 := by
  decide

/-- C4: for every grid with no true boundary (single-tile toroidal mode),
one step in which every neighbor is resolved through the refreshed padding
border (refresh_padding, modelled from the spec) produces, on every
interior cell, exactly the result of one step in which every neighbor is
looked up directly by per-axis modulo arithmetic through
SquareGrid::delta_index: no seam artifacts at the border. -/
theorem toroidal_step_eq_modulo {C D Fl : Type} (sim : SimRules C D Fl) (h w : Nat)
    (orig : Nat → Nat → C) (hh : 1 ≤ h) (hw : 1 ≤ w)
    (y x : Nat) (hy : y < h) (hx : x < w) :
    toroidalStep sim h w (paddedOf sim h w orig) (y + 1) (x + 1) =
      moduloStepSpec sim h w orig y x := by
  simp only [toroidalStep, moduloStepSpec]
  unfold ingressCells
  rw [if_pos (⟨by omega, by omega, by omega, by omega⟩ :
    interiorPos (h + 2) (w + 2) (y + 1) (x + 1))]
  have hc : egressCells sim (h + 2) (w + 2)
      (refresh_padding h w (paddedOf sim h w orig))
      (refresh_padding h w (computeDiffs sim (h + 2) (w + 2)
        (refresh_padding h w (paddedOf sim h w orig)))) (y + 1) (x + 1) =
      (sim.egress (orig y x)
        (moduloWindow (fun p q => sim.compute (moduloWindow orig h w p q)) h w y x)).1 := by
    unfold egressCells
    rw [if_pos (⟨by omega, by omega, by omega, by omega⟩ :
      interiorPos (h + 2) (w + 2) (y + 1) (x + 1)),
      toroidal_egress_eq sim h w orig hh hw y x hy hx]
  rw [hc]
  congr 1
  funext s
  obtain ⟨hb1, hb2, hb3, hb4⟩ := slotDelta_bounds s
  have hAy : ((((y : Int) + 1 + (slotDelta s).2).toNat : Nat) : Int) =
      ((y + 1 : Nat) : Int) + (slotDelta s).2 := by omega
  have hAx : ((((x : Int) + 1 + (slotDelta s).1).toNat : Nat) : Int) =
      ((x + 1 : Nat) : Int) + (slotDelta s).1 := by omega
  rw [exchangeAll_recv (h + 2) (w + 2) _ (y + 1) (x + 1) s
    (((y : Int) + 1 + (slotDelta s).2).toNat) (((x : Int) + 1 + (slotDelta s).1).toNat)
    (by omega) (by omega) (by omega) (by omega) hAy hAx]
  show egressFlows sim (h + 2) (w + 2)
      (refresh_padding h w (paddedOf sim h w orig))
      (refresh_padding h w (computeDiffs sim (h + 2) (w + 2)
        (refresh_padding h w (paddedOf sim h w orig))))
      ((((y : Int) + 1 + (slotDelta s).2).toNat + h - 1) % h + 1)
      ((((x : Int) + 1 + (slotDelta s).1).toNat + w - 1) % w + 1) (invSlot s) = _
  have ha1 : (((y : Int) + 1 + (slotDelta s).2).toNat + h - 1) % h < h :=
    Nat.mod_lt _ (by omega)
  have hb1w : (((x : Int) + 1 + (slotDelta s).1).toNat + w - 1) % w < w :=
    Nat.mod_lt _ (by omega)
  unfold egressFlows
  rw [if_pos (⟨by omega, by omega, by omega, by omega⟩ :
    interiorPos (h + 2) (w + 2)
      ((((y : Int) + 1 + (slotDelta s).2).toNat + h - 1) % h + 1)
      ((((x : Int) + 1 + (slotDelta s).1).toNat + w - 1) % w + 1))]
  rw [toroidal_egress_eq sim h w orig hh hw _ _ ha1 hb1w]
  obtain ⟨hdiv, hmod⟩ := delta_index_split w h x y hw hh hx hy (slotDelta s)
  rw [hdiv, hmod]
  have e1 : ((h : Int) + (slotDelta s).2 + (y : Int)).toNat =
      ((y : Int) + 1 + (slotDelta s).2).toNat + h - 1 := by omega
  have e2 : ((w : Int) + (slotDelta s).1 + (x : Int)).toNat =
      ((x : Int) + 1 + (slotDelta s).1).toNat + w - 1 := by omega
  rw [e1, e2]

/-- C10 (amended): the per-axis wrapping delta_index of SquareGrid and
the flat-index wrapping delta_index of VonNeumannMultiSquareGrid agree for
every in-range index and unit offset whenever the x component does not wrap
(0 <= x + dx < width); when the x component wraps the two can disagree, as
the counterexample shows at a concrete border index. -/
theorem delta_index_agree (w h i : Nat) (dx dy : Int)
    (hw : 1 ≤ w) (hh : 1 ≤ h) (hi : i < w * h)
    (hdx : -1 ≤ dx ∧ dx ≤ 1) (hdy : -1 ≤ dy ∧ dy ≤ 1)
    (hno1 : 0 ≤ ((i % w : Nat) : Int) + dx)
    (hno2 : ((i % w : Nat) : Int) + dx < (w : Int)) :
    squareGridDeltaIndex w h i (dx, dy) = multiDeltaIndex w h i (dx, dy) := by
  obtain ⟨hdx1, hdx2⟩ := hdx
  obtain ⟨hdy1, hdy2⟩ := hdy
  have hxw : i % w < w := Nat.mod_lt _ (by omega)
  have hyh : i / w < h := Nat.div_lt_of_lt_mul hi
  unfold squareGridDeltaIndex multiDeltaIndex
  simp only []
  have he1 : ((w : Int) + dx + ((i % w : Nat) : Int)).toNat =
      (((i % w : Nat) : Int) + dx).toNat + w := by omega
  rw [he1, Nat.add_mod_right]
  have he2 : (((i % w : Nat) : Int) + dx).toNat % w = (((i % w : Nat) : Int) + dx).toNat :=
    Nat.mod_eq_of_lt (by omega)
  rw [he2]
  have hi2 : (i : Int) = ((i % w : Nat) : Int) + ((i / w : Nat) : Int) * (w : Int) := by
    have h0 : i % w + i / w * w = i := Nat.mod_add_div' i w
    calc (i : Int) = ((i % w + i / w * w : Nat) : Int) := by rw [h0]
    _ = ((i % w : Nat) : Int) + ((i / w : Nat) : Int) * (w : Int) := by push_cast; ring
  have hE : ((((i % w : Nat) : Int) + dx).toNat : Int) = ((i % w : Nat) : Int) + dx := by
    omega
  have hY : ((((h : Int) + dy + ((i / w : Nat) : Int)).toNat : Nat) : Int) =
      (h : Int) + dy + ((i / w : Nat) : Int) := by
    refine Int.toNat_of_nonneg ?_
    have hq : (0 : Int) ≤ ((i / w : Nat) : Int) := Int.natCast_nonneg _
    have hhi : (1 : Int) ≤ (h : Int) := by exact_mod_cast hh
    linarith
  have hc1 : ((i + w * h : Nat) : Int) = (i : Int) + (w : Int) * (h : Int) := by
    push_cast
    ring
  have key : ((i + w * h : Nat) : Int) + dx + dy * (w : Int) =
      (((((i % w : Nat) : Int) + dx).toNat : Nat) : Int) +
        ((((h : Int) + dy + ((i / w : Nat) : Int)).toNat : Nat) : Int) * (w : Int) := by
    rw [hE, hY, hc1, hi2]
    ring
  rw [key]
  have hcast : (((((i % w : Nat) : Int) + dx).toNat : Nat) : Int) +
      ((((h : Int) + dy + ((i / w : Nat) : Int)).toNat : Nat) : Int) * (w : Int) =
      (((((i % w : Nat) : Int) + dx).toNat +
        ((h : Int) + dy + ((i / w : Nat) : Int)).toNat * w : Nat) : Int) := by
    push_cast
    ring
  rw [hcast, Int.toNat_natCast]
  set e := (((i % w : Nat) : Int) + dx).toNat with hedef
  set Y := ((h : Int) + dy + ((i / w : Nat) : Int)).toNat with hYdef
  have hew : e < w := by omega
  have hYsplit : Y = h * (Y / h) + Y % h := (Nat.div_add_mod Y h).symm
  have hmh : Y % h < h := Nat.mod_lt _ (by omega)
  have hYw : e + Y * w = e + Y % h * w + Y / h * (w * h) := by
    calc e + Y * w = e + (h * (Y / h) + Y % h) * w := by rw [← hYsplit]
    _ = e + Y % h * w + Y / h * (w * h) := by ring
  rw [hYw, Nat.add_mul_mod_self_right]
  have hlt : e + Y % h * w < w * h := by
    calc e + Y % h * w < (Y % h + 1) * w := by rw [add_mul, one_mul]; omega
    _ ≤ h * w := Nat.mul_le_mul_right w (by omega)
    _ = w * h := Nat.mul_comm h w
  exact (Nat.mod_eq_of_lt hlt).symm

/-- C2: the 8-neighborhood Game-of-Life blinker scenario of
src/tests/gol.rs: building the 5 by 5 grid whose only live cells are
(2,1), (2,2), (2,3) yields the padded start grid; one step_parallel
produces exactly the vertical blinker (1,2), (2,2), (3,2); a second
step_parallel returns exactly the original horizontal blinker. -/
theorem gol_blinker_round_trip :
    squareGridNew golSim 5 5 golBlinkerH = some golGrid0 ∧
    (∀ y x : Fin 5, step_parallel golSim 7 7 golGrid0 (y.val + 1) (x.val + 1) =
      golBlinkerV y.val x.val) ∧
    (∀ y x : Fin 5, step_parallel golSim 7 7 (step_parallel golSim 7 7 golGrid0)
      (y.val + 1) (x.val + 1) = golBlinkerH y.val x.val) :=
  ⟨rfl, by decide, by decide⟩

/-- C3 witness: order independence instantiated on the Game-of-Life
simulation on a 4 by 4 padded grid, visiting the interior in reversed
row-major order in all three passes. -/
theorem step_order_independent_witness :
    ((interiorList 4 4).reverse.Perm (interiorList 4 4)) ∧
    stepSequential golSim 4 4 golGrid0
        (interiorList 4 4).reverse (interiorList 4 4).reverse (interiorList 4 4).reverse =
      step_parallel golSim 4 4 golGrid0 :=
  ⟨(interiorList 4 4).reverse_perm,
    step_order_independent golSim 4 4 golGrid0 _ _ _
      ((interiorList 4 4).reverse_perm) ((interiorList 4 4).reverse_perm)
      ((interiorList 4 4).reverse_perm)⟩

/-- C4 witness: the toroidal wrap equivalence evaluated on the smallest
legal grid, a 1 by 1 torus holding one live Game-of-Life cell. -/
theorem toroidal_step_eq_modulo_witness :
    ((1 : Nat) ≤ 1 ∧ (0 : Nat) < 1) ∧
    toroidalStep golSim 1 1 (paddedOf golSim 1 1 fun _ _ => true) 1 1 =
      moduloStepSpec golSim 1 1 (fun _ _ => true) 0 0 :=
  ⟨⟨by decide, by decide⟩,
    toroidal_step_eq_modulo golSim 1 1 (fun _ _ => true) (by decide) (by decide) 0 0
      (by decide) (by decide)⟩

/-- C10 witness: the two delta_index implementations evaluated at a
non-wrapping offset, index 4 of a 3 by 3 grid moved by (1, 1). -/
theorem delta_index_agree_witness :
    ((0 : Int) ≤ ((4 % 3 : Nat) : Int) + 1) ∧ (((4 % 3 : Nat) : Int) + 1 < (3 : Int)) ∧
    squareGridDeltaIndex 3 3 4 (1, 1) = multiDeltaIndex 3 3 4 (1, 1) :=
  ⟨by decide, by decide,
    delta_index_agree 3 3 4 1 1 (by decide) (by decide) (by decide)
      (by decide) (by decide) (by decide) (by decide)⟩

/-- C5 counterexample: sync_cells never completes: even on a 1 by 1 grid
where every channel write succeeds (the list-modelled channels always
accept), the call does not return successfully, because the receive path is
an unconditional unimplemented panic; so the claim that the call completes
without failure whenever every channel read and write succeeds is false. -/
theorem sync_cells_never_completes :
    (sync_cells 1 1 fun _ => (7 : Nat)).isOk = false := rfl

/-- C5 (amended): sync_cells serializes this tile's four corner cells and
four full edge rows and columns into the 8 outbound channels (corners to the
diagonal channels, edges to the side channels, each edge in index order),
and then unconditionally panics on the unimplemented receive path: the
inbound streams are never deserialized into the padding cells and the call
never completes successfully. -/
theorem sync_cells_sends_then_panics {C : Type} (w h : Nat) (cells : Nat → C)
    (hw : 1 ≤ w) (hh : 1 ≤ h) :
    sync_cells w h cells = SyncResult.panicked
      { outRight := List.ofFn fun k : Fin h => cells (k.val * w + (w - 1))
        outUpRight := [cells (0 * w + (w - 1))]
        outUp := List.ofFn fun k : Fin w => cells (0 * w + k.val)
        outUpLeft := [cells (0 * w + 0)]
        outLeft := List.ofFn fun k : Fin h => cells (k.val * w + 0)
        outDownLeft := [cells ((h - 1) * w + 0)]
        outDown := List.ofFn fun k : Fin w => cells ((h - 1) * w + k.val)
        outDownRight := [cells ((h - 1) * w + (w - 1))] } := by
  unfold sync_cells
  refine congrArg SyncResult.panicked ?_
  simp only [SyncOut.mk.injEq]
  refine ⟨?_, ?_, ?_, ?_, ?_, ?_, ?_, ?_⟩
  · refine List.ext_getElem (by simp) ?_
    intro k h1 h2
    simp only [List.getElem_map, List.getElem_range, List.getElem_ofFn]
    refine congrArg cells ?_
    rw [add_mul, one_mul]
    omega
  · refine congrArg (fun n => [cells n]) ?_
    omega
  · refine List.ext_getElem (by simp) ?_
    intro k h1 h2
    simp only [List.getElem_map, List.getElem_range, List.getElem_ofFn]
    refine congrArg cells ?_
    omega
  · refine congrArg (fun n => [cells n]) ?_
    omega
  · refine List.ext_getElem (by simp) ?_
    intro k h1 h2
    simp only [List.getElem_map, List.getElem_range, List.getElem_ofFn]
    refine congrArg cells ?_
    omega
  · rfl
  · refine List.ext_getElem (by simp) ?_
    intro k h1 h2
    simp only [List.getElem_map, List.getElem_range, List.getElem_ofFn]
    refine congrArg cells ?_
    have hsplit : (h - 1) * w + w = h * w := by
      have e : h - 1 + 1 = h := by omega
      calc (h - 1) * w + w = (h - 1 + 1) * w := by rw [add_mul, one_mul]
      _ = h * w := by rw [e]
    have hcomm : h * w = w * h := Nat.mul_comm h w
    omega
  · refine congrArg (fun n => [cells n]) ?_
    have hsplit : (h - 1) * w + w = h * w := by
      have e : h - 1 + 1 = h := by omega
      calc (h - 1) * w + w = (h - 1 + 1) * w := by rw [add_mul, one_mul]
      _ = h * w := by rw [e]
    have hcomm : h * w = w * h := Nat.mul_comm h w
    omega

/-- C5 witness: the send-then-panic behaviour evaluated on a concrete
2 by 2 grid holding cells 0..3. -/
theorem sync_cells_sends_then_panics_witness :
    ((1 : Nat) ≤ 2) ∧
    sync_cells 2 2 (fun i => i) = SyncResult.panicked
      { outRight := List.ofFn fun k : Fin 2 => (fun i => i) (k.val * 2 + (2 - 1))
        outUpRight := [(fun i => i) (0 * 2 + (2 - 1))]
        outUp := List.ofFn fun k : Fin 2 => (fun i => i) (0 * 2 + k.val)
        outUpLeft := [(fun i => i) (0 * 2 + 0)]
        outLeft := List.ofFn fun k : Fin 2 => (fun i => i) (k.val * 2 + 0)
        outDownLeft := [(fun i => i) ((2 - 1) * 2 + 0)]
        outDown := List.ofFn fun k : Fin 2 => (fun i => i) ((2 - 1) * 2 + k.val)
        outDownRight := [(fun i => i) ((2 - 1) * 2 + (2 - 1))] } :=
  ⟨by decide, sync_cells_sends_then_panics 2 2 (fun i => i) (by decide) (by decide)⟩
